import Mathlib

/-!
Verification of the task-execution orchestrator behind the `run` command of
the Acrobi CLI (src/dist/index.js, `runCommand`, lines 611-856).

The orchestrator is embedded shallowly as a pure function from an
environment describing the external world (which module imports resolve,
what the tool loader / session manager / tools return, possibly throwing,
modelled with `Except`) to a record holding the ordered trace of observable
events (console prints, module imports, session-manager calls, tool calls,
the top-level catch handler), the process exit code, and the normalized
`ExecutionResult` that reaches the result reporter, when one does.

String processing is done on `List Char`.  JavaScript's case-insensitive
regex matching and `toLowerCase` are modelled with `Char.toLower`
(adequate for the ASCII phrases involved); the JS `\s` class is modelled by
the ASCII whitespace characters.
-/

namespace Acrobi

/-- Whitespace test modelling the JS regex class `\s` on ASCII input. -/
def isWsChar (c : Char) : Bool :=
  c == ' ' || c == '\t' || c == '\n' || c == '\r' || c == '\x0b' || c == '\x0c'

/-- Does the second list occur at the head of the first (exact characters)? -/
def beginsWith : List Char → List Char → Bool
  | _, [] => true
  | [], _ :: _ => false
  | a :: as, b :: bs => a == b && beginsWith as bs

/-- Substring containment on character lists, modelling JS `String.includes`. -/
def containsSub : List Char → List Char → Bool
  | [], n => beginsWith [] n
  | c :: t, n => beginsWith (c :: t) n || containsSub t n

/-- Substring containment lifted to `String`. -/
def strContains (hay needle : String) : Bool :=
  containsSub hay.data needle.data

/-- Lower-case every character, modelling JS `toLowerCase` on ASCII input. -/
def lowerList (l : List Char) : List Char :=
  l.map Char.toLower

/-- Strip a (lower-case) pattern from the front of the input,
case-insensitively, returning the rest; models matching one regex
alternative at a fixed position under the `i` flag. -/
def stripCI : List Char → List Char → Option (List Char)
  | [], s => some s
  | _ :: _, [] => none
  | p :: ps, c :: cs => if p.toLower == c.toLower then stripCI ps cs else none

/-- The alternatives of the URL-extraction regex
`/(?:title of|visit|go to|navigate to)\s+([^\s]+)/i` (src line 753). -/
def phrases : List (List Char) :=
  ["title of".data, "visit".data, "go to".data, "navigate to".data]

/-- Model of the regex tail `\s+([^\s]+)` at a fixed position: requires at
least one whitespace character, then captures the maximal following run of
non-whitespace characters, which must be nonempty. -/
def grabTarget (rest : List Char) : Option (List Char) :=
  match rest with
  | [] => none
  | c :: cs =>
    if isWsChar c then
      let t := (cs.dropWhile isWsChar).takeWhile (fun d => !(isWsChar d))
      if t.isEmpty then none else some t
    else none

/-- Try the whole regex at one fixed start position: some alternative phrase
followed by whitespace and a captured token. -/
def matchAt (s : List Char) : Option (List Char) :=
  phrases.findSome? (fun p =>
    match stripCI p s with
    | some rest => grabTarget rest
    | none => none)

/-- Model of `task.match(/(?:title of|visit|go to|navigate to)\s+([^\s]+)/i)`
returning the captured group: scan start positions left to right and take
the first position where the regex matches (src line 753). -/
def extractUrl : List Char → Option (List Char)
  | [] => none
  | c :: cs =>
    match matchAt (c :: cs) with
    | some r => some r
    | none => extractUrl cs

/-- Specification-side reformulation of the extraction used to settle C10:
the result comes from the leftmost suffix of the task (i.e. the leftmost
occurrence position) at which a phrase followed by whitespace and a
non-whitespace token matches. -/
def claimExtract (s : List Char) : Option (List Char) :=
  s.tails.findSome? matchAt

/-- Intent test of `LocalExecutorAgent.run` (src line 748):
the lower-cased task contains `playwright`, `browser` or `title of`. -/
def intentMatch (task : String) : Bool :=
  let tl := lowerList task.data
  containsSub tl "playwright".data || containsSub tl "browser".data ||
    containsSub tl "title of".data

/-- Scheme defaulting of src line 760:
``url.startsWith('http') ? url : `https://${url}` ``. -/
def prefixUrl (u : String) : String :=
  if beginsWith u.data "http".data then u else "https://" ++ u

/-- Claim-side notion (C8) of "already carries a URL scheme": an RFC 3986
scheme is an ASCII letter followed by letters, digits, `+`, `-` or `.`,
terminated by `:`.  This definition follows the claim's words, not the
source, and is only used to compare the two. -/
def isAsciiLetter (c : Char) : Bool :=
  ('a' ≤ c && c ≤ 'z') || ('A' ≤ c && c ≤ 'Z')

/-- Tail of the claim-side scheme scanner: scheme characters up to a colon. -/
def schemeTail : List Char → Bool
  | [] => false
  | c :: cs =>
    if c == ':' then true
    else (isAsciiLetter c || c.isDigit || c == '+' || c == '-' || c == '.') && schemeTail cs

/-- Claim-side test for a leading URL scheme (see `schemeTail`). -/
def hasScheme (u : String) : Bool :=
  match u.data with
  | [] => false
  | c :: cs => isAsciiLetter c && schemeTail cs

/-- Result shape returned by a tool's `execute` action (the Playwright tool
returns `{success, data?, error?}`; absent fields are `none`). -/
structure ToolResult where
  success : Bool
  data : String := ""
  error : Option String := none
deriving DecidableEq, Repr

/-- Model of one loaded tool: its description, and the outcomes of its
`goto` action (as a function of the url passed), its `title` action and its
optional `cleanup` hook.  `Except.error` models the action throwing. -/
structure PTool where
  descr : String := ""
  gotoOut : String → Except String ToolResult := fun _ => Except.ok { success := true }
  titleOut : Except String ToolResult := Except.ok { success := true }
  hasCleanup : Bool := false
  cleanupOut : Except String Unit := Except.ok ()

/-- The normalized result record consumed by the result reporter
(spec §3 ExecutionResult); fields absent in the source object are `none`. -/
structure ExecutionResult where
  success : Bool
  message : Option String := none
  title : Option String := none
  response : Option String := none
  error : Option String := none
  note : Option String := none
deriving DecidableEq, Repr

/-- Observable events of one `run` invocation, in program order. -/
inductive Event where
  | printOut (msg : String)
  | printWarn (msg : String)
  | printErr (msg : String)
  | importLocalRuntime
  | importPackageRuntime
  | importLocalLoader
  | importPackageLoader
  | loaderExec
  | createSessionCall
  | sendMessageCall (sid : String)
  | deactivateSessionCall (sid : String)
  | gotoCall (url : String)
  | titleCall
  | toolCleanupCall
  | agentCleanupCall
  | topError (msg : String)
deriving DecidableEq, Repr

/-- Capability set obtained from one runtime source.  The local colocated
runtime module (src lines 628-632) binds all four capabilities; the
package fallback (src lines 637-640) binds only `Agent`, `Session` and
`Orchestrator` and leaves `NativeSessionManager` unassigned. -/
structure RuntimeCaps where
  hasAgent : Bool
  hasSession : Bool
  hasOrchestrator : Bool
  hasNativeSessionManager : Bool
deriving DecidableEq, Repr

/-- Capabilities bound by the local colocated runtime import. -/
def localCaps : RuntimeCaps :=
  { hasAgent := true, hasSession := true, hasOrchestrator := true,
    hasNativeSessionManager := true }

/-- Capabilities bound by the `@acrobi/cortex` package fallback import;
`NativeSessionManager` is not read from the package module. -/
def packageCaps : RuntimeCaps :=
  { hasAgent := true, hasSession := true, hasOrchestrator := true,
    hasNativeSessionManager := false }

/-- Environment of one `run` invocation: the CLI arguments and the
behaviour of every external collaborator the orchestrator touches. -/
structure Env where
  task : String
  engineOpt : Option String := none
  verbose : Bool := false
  localRuntimeOk : Bool := true
  packageRuntimeOk : Bool := false
  localLoaderOk : Bool := false
  packageLoaderOk : Bool := false
  loaderRun : Except String (List (String × PTool)) := Except.ok []
  createRes : Except String String := Except.ok "session-1"
  sendRes : Except String String := Except.ok ""

/-- Outcome of one `run` invocation: the ordered event trace, the explicit
process exit code (`none` when the command returns normally), and the
`ExecutionResult` that reached the result reporter, if any. -/
structure RunOut where
  events : List Event
  exitCode : Option Nat
  result : Option ExecutionResult
deriving DecidableEq, Repr

/-- Engine selection `options.engine || 'legacy'` (src line 614): absent or
empty (falsy) values default to `legacy`. -/
def engineOf (env : Env) : String :=
  match env.engineOpt with
  | none => "legacy"
  | some s => if s = "" then "legacy" else s

/-- Validation `['legacy','native'].includes(engine)` (src line 615). -/
def validEngine (e : String) : Bool :=
  e == "legacy" || e == "native"

/-- Does an event perform module resolution, session work, file or network
I/O (as opposed to console printing)?  Used to state C2. -/
def isIOEvent : Event → Bool
  | .printOut _ => false
  | .printWarn _ => false
  | .printErr _ => false
  | .topError _ => false
  | _ => true

/-- Whether one `Except` outcome is a success. -/
def isOkE {α : Type} : Except String α → Bool
  | .ok _ => true
  | .error _ => false

/-- Result of `LocalExecutorAgent.run` (src lines 741-813) together with
the tool-invocation events it performs; `Except.error` models the `run`
method throwing (it catches, logs and rethrows).  The agent's own `log`
lines are not traced. -/
def legacyRun (task : String) (tools : List (String × PTool)) :
    List Event × Except String ExecutionResult :=
  if intentMatch task then
    match tools.lookup "PlaywrightBrowser" with
    | none =>
      ([], Except.ok { success := false, error := some "Playwright tool not found. Install it with: npm install @acrobi/tool-playwright" })
    | some t =>
      match extractUrl task.data with
      | none =>
        ([], Except.ok { success := false, error := some "Could not extract URL from task" })
      | some uc =>
        let full := prefixUrl (String.mk uc)
        match t.gotoOut full with
        | Except.error e => ([Event.gotoCall full], Except.error e)
        | Except.ok nav =>
          if nav.success then
            match t.titleOut with
            | Except.error e => ([Event.gotoCall full, Event.titleCall], Except.error e)
            | Except.ok tr =>
              if tr.success then
                let r : ExecutionResult := { success := true, title := some tr.data,
                                             message := some ("Page title: " ++ tr.data) }
                if t.hasCleanup then
                  match t.cleanupOut with
                  | Except.error e =>
                    ([Event.gotoCall full, Event.titleCall, Event.toolCleanupCall], Except.error e)
                  | Except.ok _ =>
                    ([Event.gotoCall full, Event.titleCall, Event.toolCleanupCall], Except.ok r)
                else
                  ([Event.gotoCall full, Event.titleCall], Except.ok r)
              else
                ([Event.gotoCall full, Event.titleCall],
                 Except.ok { success := false, error := tr.error })
          else
            ([Event.gotoCall full], Except.ok { success := false, error := nav.error })
  else
    ([], Except.ok { success := true,
                     message := some ("Task \"" ++ task ++ "\" completed successfully (simulated execution)"),
                     note := some "This is a simulated result. For actual automation, install specific tool packages." })

/-- Result reporting (src lines 824-847): header, then on success the
present (and, per JS truthiness, nonempty) fields in a fixed order and a
normal return; on failure the error line and `process.exit(1)`. -/
def reportResult (r : ExecutionResult) : List Event × Option Nat :=
  let hdr := [Event.printOut "✅ Task Execution Complete!"]
  if r.success then
    (hdr ++ [Event.printOut "📊 Result:"]
        ++ (match r.title with
            | some t => if t = "" then [] else [Event.printOut ("   Title: \"" ++ t ++ "\"")]
            | none => [])
        ++ (match r.message with
            | some m => if m = "" then [] else [Event.printOut ("   Message: " ++ m)]
            | none => [])
        ++ (match r.response with
            | some x => if x = "" then [] else [Event.printOut ("   Response: " ++ x)]
            | none => [])
        ++ (match r.note with
            | some n => if n = "" then [] else [Event.printOut ("   Note: " ++ n)]
            | none => [])
        ++ [Event.printOut "🎉 Task completed successfully!"], none)
  else
    (hdr ++ [Event.printErr "❌ Error:",
             Event.printErr ("   " ++ r.error.getD "undefined")], some 1)

/-- Wrap up a normally returned result: report it and record it. -/
def finishRun (evs : List Event) (r : ExecutionResult) : RunOut :=
  let rep := reportResult r
  { events := evs ++ rep.1, exitCode := rep.2, result := some r }

/-- Native-engine branch (src lines 681-727): requires the session-manager
capability, creates a session, sends one message inside `try`, and
deactivates the session in the `finally` on both the normal and the
throwing path; a thrown error then reaches the top-level handler. -/
def nativeExec (createRes sendRes : Except String String) (caps : RuntimeCaps)
    (base : List Event) : RunOut :=
  if caps.hasNativeSessionManager then
    match createRes with
    | Except.error e =>
      { events := base ++ [Event.createSessionCall, Event.topError e],
        exitCode := some 1, result := none }
    | Except.ok sid =>
      let created := [Event.createSessionCall,
                      Event.printOut ("Created native session: " ++ sid)]
      match sendRes with
      | Except.ok content =>
        let r : ExecutionResult := { success := true,
                                     message := some "Task completed with native engine",
                                     response := some content }
        finishRun (base ++ created ++
          [Event.sendMessageCall sid, Event.deactivateSessionCall sid,
           Event.printOut "Native session deactivated"]) r
      | Except.error e =>
        { events := base ++ created ++
            [Event.sendMessageCall sid, Event.deactivateSessionCall sid,
             Event.printOut "Native session deactivated", Event.topError e],
          exitCode := some 1, result := none }
  else
    { events := base ++
        [Event.topError "NativeSessionManager not available - please ensure @acrobi/cortex is properly installed"],
      exitCode := some 1, result := none }

/-- Legacy-engine branch (src lines 728-822): run the local executor agent;
on a normal return (success or structured failure) call the agent cleanup
and report; if the run throws, control reaches the top-level handler and
the cleanup line is never executed. -/
def legacyExec (task : String) (base : List Event)
    (tools : List (String × PTool)) : RunOut :=
  match legacyRun task tools with
  | (aevs, Except.error e) =>
    { events := base ++ aevs ++ [Event.topError e], exitCode := some 1, result := none }
  | (aevs, Except.ok r) =>
    finishRun (base ++ aevs ++ [Event.agentCleanupCall]) r

/-- Engine dispatch (src lines 679-822) after tools are loaded. -/
def afterTools (task : String) (createRes sendRes : Except String String)
    (caps : RuntimeCaps) (engine : String) (base : List Event)
    (tools : List (String × PTool)) : RunOut :=
  if engine == "native" then
    nativeExec createRes sendRes caps
      (base ++ [Event.printOut "🚀 Using Native Engine with Anthropic SDK"])
  else
    legacyExec task
      (base ++ [Event.printOut "🔄 Using Legacy Engine",
                Event.printOut "🤖 Creating local executor agent...",
                Event.printOut "⚡ Executing task..."]) tools

/-- Verbose listing of discovered tools (src lines 672-677). -/
def verboseToolEvents (v : Bool) (ts : List (String × PTool)) : List Event :=
  if v then
    Event.printOut ("Found " ++ toString ts.length ++ " tool(s):") ::
      ts.map (fun p => Event.printOut ("  - " ++ p.1 ++ ": " ++ p.2.descr))
  else []

/-- Model of `runCommand` (src lines 611-856): engine validation, runtime
resolution with its two-source fallback, tool-loader resolution with its
two-source fallback, tool loading, engine dispatch, result reporting, and
the top-level catch handler that prints the error and exits 1. -/
def runAcrobi (env : Env) : RunOut :=
  let engine := engineOf env
  if validEngine engine then
    let pre := [Event.printOut ("🚀 Running Acrobi task: \"" ++ env.task ++ "\""),
                Event.printOut ("🔧 Using engine: " ++ String.mk (engine.data.map Char.toUpper))]
    if env.localRuntimeOk || env.packageRuntimeOk then
      let caps := if env.localRuntimeOk then localCaps else packageCaps
      let revs := if env.localRuntimeOk then [Event.importLocalRuntime]
                  else [Event.importLocalRuntime, Event.importPackageRuntime]
      let loevs := if env.localLoaderOk then [Event.importLocalLoader]
                   else if env.packageLoaderOk then
                     [Event.importLocalLoader, Event.importPackageLoader]
                   else
                     [Event.importLocalLoader, Event.importPackageLoader,
                      Event.printWarn "⚠️  Dynamic tool loading not available"]
      let base := pre ++ revs ++ loevs ++ [Event.printOut "🔧 Initializing Cortex runtime..."]
      if env.localLoaderOk || env.packageLoaderOk then
        match env.loaderRun with
        | Except.error e =>
          { events := base ++ [Event.printOut "🛠️  Loading dynamic tools...",
                               Event.loaderExec, Event.topError e],
            exitCode := some 1, result := none }
        | Except.ok ts =>
          afterTools env.task env.createRes env.sendRes caps engine
            (base ++ [Event.printOut "🛠️  Loading dynamic tools...", Event.loaderExec]
                  ++ verboseToolEvents env.verbose ts) ts
      else
        afterTools env.task env.createRes env.sendRes caps engine base []
    else
      { events := pre ++
          [Event.importLocalRuntime, Event.importPackageRuntime,
           Event.printErr "❌ Cortex runtime not found",
           Event.printOut "💡 Install it locally: npm install file:../cortex",
           Event.printOut "💡 Or install from npm: npm install @acrobi/cortex"],
        exitCode := some 1, result := none }
  else
    { events := [Event.printErr ("Error: Invalid engine \"" ++ engine ++
        "\". Valid options are: legacy, native")],
      exitCode := some 1, result := none }

/-- The tool registry the orchestrator actually hands to the engines:
the loader's output when a loader source resolved, empty otherwise. -/
def toolsOf (env : Env) : List (String × PTool) :=
  if env.localLoaderOk || env.packageLoaderOk then
    match env.loaderRun with
    | Except.ok ts => ts
    | Except.error _ => []
  else []

/-- The capability set the run ends up with: the local colocated runtime
wins when it resolves, otherwise the package fallback. -/
def capsOf (env : Env) : RuntimeCaps :=
  if env.localRuntimeOk then localCaps else packageCaps

/-- The events emitted before engine dispatch on a run that passes
validation, resolves a runtime, and whose tool loading does not throw. -/
def phaseBase (env : Env) : List Event :=
  [Event.printOut ("🚀 Running Acrobi task: \"" ++ env.task ++ "\""),
   Event.printOut ("🔧 Using engine: " ++ String.mk ((engineOf env).data.map Char.toUpper))]
  ++ (if env.localRuntimeOk then [Event.importLocalRuntime]
      else [Event.importLocalRuntime, Event.importPackageRuntime])
  ++ (if env.localLoaderOk then [Event.importLocalLoader]
      else if env.packageLoaderOk then
        [Event.importLocalLoader, Event.importPackageLoader]
      else
        [Event.importLocalLoader, Event.importPackageLoader,
         Event.printWarn "⚠️  Dynamic tool loading not available"])
  ++ [Event.printOut "🔧 Initializing Cortex runtime..."]
  ++ (if env.localLoaderOk || env.packageLoaderOk then
        [Event.printOut "🛠️  Loading dynamic tools...", Event.loaderExec]
          ++ verboseToolEvents env.verbose (toolsOf env)
      else [])

/-- Events that the pre-dispatch phases may emit: prints, module imports
and the loader invocation — in particular no session calls, no tool-action
calls, no cleanup calls and no top-level error. -/
def isPhaseEvent : Event → Bool
  | .printOut _ => true
  | .printWarn _ => true
  | .printErr _ => true
  | .importLocalRuntime => true
  | .importPackageRuntime => true
  | .importLocalLoader => true
  | .importPackageLoader => true
  | .loaderExec => true
  | _ => false

/-- Events `LocalExecutorAgent.run` itself can emit (tool actions only). -/
def isAgentToolEvent : Event → Bool
  | .gotoCall _ => true
  | .titleCall => true
  | .toolCleanupCall => true
  | _ => false

/-- The normalization invariant of spec §3 on `ExecutionResult` (C5). -/
def resultInvariant (r : ExecutionResult) : Prop :=
  (r.success = false → r.error.isSome = true) ∧
  (r.success = true →
    (r.message.isSome = true ∨ r.title.isSome = true ∨ r.response.isSome = true))

/-- Boundary contract of a tool: when an action returns a failure record
(rather than throwing), that record carries an error value. -/
def toolWF (t : PTool) : Prop :=
  (∀ u r, t.gotoOut u = Except.ok r → r.success = false → r.error.isSome = true) ∧
  (∀ r, t.titleOut = Except.ok r → r.success = false → r.error.isSome = true)

/-- A navigation tool that always succeeds, used as a concrete witness. -/
def happyTool : PTool :=
  { descr := "browser automation",
    gotoOut := fun _ => Except.ok { success := true },
    titleOut := Except.ok { success := true, data := "Example Domain" } }

/-- A navigation tool whose `goto` action throws, used as a concrete witness. -/
def throwingTool : PTool :=
  { descr := "browser automation",
    gotoOut := fun _ => Except.error "page crashed" }

/-- Concrete run with an engine value outside the supported set. -/
def envInvalidEngine : Env := { task := "hi", engineOpt := some "turbo" }

/-- Concrete run with no engine flag supplied. -/
def envDefaultEngine : Env := { task := "hi" }

/-- Concrete run where neither runtime source resolves. -/
def envNoRuntime : Env :=
  { task := "hi", localRuntimeOk := false, packageRuntimeOk := false }

/-- Concrete native run whose `sendMessage` call throws. -/
def envNativeThrow : Env :=
  { task := "hi", engineOpt := some "native", sendRes := Except.error "boom" }

/-- Concrete native run where only the package runtime source resolves. -/
def envPackageNative : Env :=
  { task := "hi", engineOpt := some "native",
    localRuntimeOk := false, packageRuntimeOk := true }

/-- Concrete run whose tool loader resolves but throws when executed. -/
def envLoaderThrows : Env :=
  { task := "hello", localLoaderOk := true, loaderRun := Except.error "loader exploded" }

/-- Concrete run whose tool loader resolves via the package source and
throws when executed. -/
def envPkgLoaderThrows : Env :=
  { task := "hello", localLoaderOk := false, packageLoaderOk := true,
    loaderRun := Except.error "loader exploded via package" }

/-- Concrete legacy run around a browser-title task with a happy tool. -/
def envLegacyTitle : Env :=
  { task := "get the title of example.com", localLoaderOk := true,
    loaderRun := Except.ok [("PlaywrightBrowser", happyTool)] }

/-- Concrete legacy run whose tool's `goto` action throws. -/
def envLegacyGotoThrows : Env :=
  { task := "browser: go to example.com", localLoaderOk := true,
    loaderRun := Except.ok [("PlaywrightBrowser", throwingTool)] }

/-- Every list begins with itself. -/
theorem beginsWith_refl (l : List Char) : beginsWith l l = true := by
  induction l with
  | nil => rfl
  | cons c cs ih => simp [beginsWith, ih]

/-- A list contains itself as a substring. -/
theorem containsSub_self (l : List Char) : containsSub l l = true := by
  cases l with
  | nil => rfl
  | cons c cs => simp [containsSub, beginsWith_refl]

/-- A list contains its own suffix as a substring. -/
theorem containsSub_append_suffix (a b : List Char) : containsSub (a ++ b) b = true := by
  induction a with
  | nil => simpa using containsSub_self b
  | cons x xs ih => simp [containsSub, ih]

/-- String-level version of `containsSub_append_suffix`. -/
theorem strContains_append_right (a b : String) : strContains (a ++ b) b = true := by
  simpa [strContains, String.data_append] using containsSub_append_suffix a.data b.data

/-- A successful association-list lookup locates a member of the list. -/
theorem lookup_mem {β : Type} (l : List (String × β)) (k : String) (t : β)
    (h : l.lookup k = some t) : (k, t) ∈ l := by
  induction l with
  | nil => simp [List.lookup] at h
  | cons p ps ih =>
    rcases p with ⟨k', v⟩
    rw [List.lookup_cons] at h
    by_cases hk : k = k'
    · subst hk
      simp at h
      simp [h]
    · have hbeq : (k == k') = false := by simpa using hk
      rw [hbeq] at h
      exact List.mem_cons_of_mem _ (ih h)

/-- The verbose tool listing emits only console prints. -/
theorem verboseToolEvents_phase (v : Bool) (ts : List (String × PTool)) :
    ∀ e ∈ verboseToolEvents v ts, isPhaseEvent e = true := by
  intro e he
  cases v with
  | false => simp [verboseToolEvents] at he
  | true =>
    simp only [verboseToolEvents, if_pos, List.mem_cons, List.mem_map] at he
    rcases he with h | ⟨p, _, h⟩ <;> subst h <;> rfl

/-- The pre-dispatch phases emit only prints, imports and the loader call. -/
theorem phaseBase_phase (env : Env) :
    ∀ e ∈ phaseBase env, isPhaseEvent e = true := by
  unfold phaseBase
  simp only [List.forall_mem_append]
  refine ⟨⟨⟨⟨?_, ?_⟩, ?_⟩, ?_⟩, ?_⟩
  · simp [isPhaseEvent]
  · by_cases h : env.localRuntimeOk = true <;> simp [h, isPhaseEvent]
  · by_cases h1 : env.localLoaderOk = true <;> by_cases h2 : env.packageLoaderOk = true <;>
      simp [h1, h2, isPhaseEvent]
  · simp [isPhaseEvent]
  · by_cases h : (env.localLoaderOk || env.packageLoaderOk) = true
    · simp only [h, if_pos, List.forall_mem_append]
      exact ⟨by simp [isPhaseEvent], verboseToolEvents_phase _ _⟩
    · simp [h]

/-- The result reporter emits only console prints. -/
theorem reportResult_events_print (r : ExecutionResult) :
    ∀ e ∈ (reportResult r).1, isPhaseEvent e = true := by
  unfold reportResult
  split
  · simp only [List.forall_mem_append]
    refine ⟨⟨⟨⟨⟨⟨?_, ?_⟩, ?_⟩, ?_⟩, ?_⟩, ?_⟩, ?_⟩
    · simp [isPhaseEvent]
    · simp [isPhaseEvent]
    · cases r.title with
      | none => simp
      | some t => by_cases ht : t = "" <;> simp [ht, isPhaseEvent]
    · cases r.message with
      | none => simp
      | some m => by_cases hm : m = "" <;> simp [hm, isPhaseEvent]
    · cases r.response with
      | none => simp
      | some x => by_cases hx : x = "" <;> simp [hx, isPhaseEvent]
    · cases r.note with
      | none => simp
      | some n => by_cases hn : n = "" <;> simp [hn, isPhaseEvent]
    · simp [isPhaseEvent]
  · simp [isPhaseEvent]

/-- On a run that passes engine validation, resolves a runtime, and whose
tool loading does not throw, the orchestrator reaches engine dispatch with
the phase events of `phaseBase`, the capabilities of the winning source and
the loaded tool registry. -/
theorem runAcrobi_reach (env : Env)
    (hV : validEngine (engineOf env) = true)
    (hRt : env.localRuntimeOk = true ∨ env.packageRuntimeOk = true)
    (hT : (env.localLoaderOk || env.packageLoaderOk) = true → isOkE env.loaderRun = true) :
    runAcrobi env = afterTools env.task env.createRes env.sendRes (capsOf env)
      (engineOf env) (phaseBase env) (toolsOf env) := by
  have hrt : (env.localRuntimeOk || env.packageRuntimeOk) = true := by
    rcases hRt with h | h <;> simp [h]
  by_cases h1 : env.localLoaderOk = true
  · rcases hload : env.loaderRun with e | ts
    · exact absurd (hT (by simp [h1])) (by simp [hload, isOkE])
    · simp [runAcrobi, hV, hrt, phaseBase, toolsOf, capsOf, h1, hload, List.append_assoc]
  · by_cases h2 : env.packageLoaderOk = true
    · rcases hload : env.loaderRun with e | ts
      · exact absurd (hT (by simp [h2])) (by simp [hload, isOkE])
      · simp [runAcrobi, hV, hrt, phaseBase, toolsOf, capsOf, h1, h2, hload,
          List.append_assoc]
    · simp [runAcrobi, hV, hrt, phaseBase, toolsOf, capsOf, h1, h2, List.append_assoc]

/-- The legacy agent's `run` emits only tool-action events. -/
theorem legacyRun_events_shape (t : String) (ts : List (String × PTool)) :
    ∀ e ∈ (legacyRun t ts).1, isAgentToolEvent e = true := by
  intro e he
  unfold legacyRun at he
  by_cases hi : intentMatch t = true
  · simp only [hi, if_pos] at he
    rcases hlk : List.lookup "PlaywrightBrowser" ts with _ | tool <;>
      simp only [hlk] at he
    · simp at he
    · rcases hex : extractUrl t.data with _ | uc <;> simp only [hex] at he
      · simp at he
      · rcases hgo : tool.gotoOut (prefixUrl (String.mk uc)) with ge | nav <;>
          simp only [hgo] at he
        · simp at he; subst he; rfl
        · cases hnav : nav.success <;> simp only [hnav] at he
          · simp at he; subst he; rfl
          · rcases hti : tool.titleOut with te | tr <;> simp only [hti] at he
            · simp at he
              rcases he with he | he <;> subst he <;> rfl
            · cases htr : tr.success <;> simp only [htr] at he
              · simp at he
                rcases he with he | he <;> subst he <;> rfl
              · cases hcl : tool.hasCleanup <;> simp only [hcl] at he
                · simp at he
                  rcases he with he | he <;> subst he <;> rfl
                · rcases hco : tool.cleanupOut with ce | cu <;> simp only [hco] at he
                  all_goals
                    (simp at he; rcases he with he | he | he <;> subst he <;> rfl)
  · simp [hi] at he

/-- The exit code and reported result of the engine-dispatch phase do not
depend on the events accumulated before it. -/
theorem afterTools_exit_result_indep (task : String)
    (createRes sendRes : Except String String) (caps : RuntimeCaps)
    (engine : String) (base base' : List Event) (ts : List (String × PTool)) :
    (afterTools task createRes sendRes caps engine base ts).exitCode =
      (afterTools task createRes sendRes caps engine base' ts).exitCode ∧
    (afterTools task createRes sendRes caps engine base ts).result =
      (afterTools task createRes sendRes caps engine base' ts).result := by
  unfold afterTools nativeExec legacyExec finishRun
  by_cases he : (engine == "native") = true <;> simp only [he, if_pos, if_neg, Bool.false_eq_true]
  · by_cases hm : caps.hasNativeSessionManager = true
    · simp only [hm, if_pos]
      cases createRes with
      | error e => simp
      | ok sid =>
        cases sendRes with
        | ok content => simp
        | error e => simp
    · simp [hm]
  · rcases hrun : legacyRun task ts with ⟨aevs, res⟩
    cases res with
    | error e => simp
    | ok r => simp

/-- Every event accumulated before engine dispatch stays in the final
trace: the dispatch phase only appends events. -/
theorem afterTools_mem_of_base (task : String)
    (createRes sendRes : Except String String) (caps : RuntimeCaps)
    (engine : String) (base : List Event) (ts : List (String × PTool))
    (x : Event) (hx : x ∈ base) :
    x ∈ (afterTools task createRes sendRes caps engine base ts).events := by
  unfold afterTools nativeExec legacyExec finishRun
  by_cases he : (engine == "native") = true <;>
    simp only [he, if_pos, if_neg, Bool.false_eq_true]
  · by_cases hm : caps.hasNativeSessionManager = true
    · simp only [hm, if_pos]
      cases createRes with
      | error e => simp [hx]
      | ok sid =>
        cases sendRes with
        | ok c => simp [hx]
        | error e => simp [hx]
    · simp [hm, hx]
  · rcases hrun : legacyRun task ts with ⟨aevs, res⟩
    cases res with
    | error e => simp [hx]
    | ok r => simp [hx]

/-- A list of pre-dispatch phase events contains no occurrence of an event
that is not a phase event. -/
theorem count_zero_of_phase {l : List Event}
    (h : ∀ e ∈ l, isPhaseEvent e = true) {a : Event}
    (ha : isPhaseEvent a = false) : l.count a = 0 := by
  apply List.count_eq_zero.mpr
  intro hmem
  rw [h a hmem] at ha
  exact Bool.true_eq_false.mp ha

/-- Claim C2, part 1 helper: shape of a run with an invalid engine. -/
theorem runAcrobi_invalid_engine (env : Env)
    (h : validEngine (engineOf env) = false) :
    runAcrobi env =
      { events := [Event.printErr ("Error: Invalid engine \"" ++ engineOf env ++
          "\". Valid options are: legacy, native")],
        exitCode := some 1, result := none } := by
  simp [runAcrobi, h]

/-- C2: for every engine value outside {legacy, native}, the run fails with
exit code 1 before any runtime resolution, session creation, file I/O or
network I/O, reporting the list of valid options (its whole trace is the
single validation-error print); and when no engine is specified the
selected engine defaults to `legacy`. -/
theorem c2_engine_validation :
    (∀ env : Env, validEngine (engineOf env) = false →
       runAcrobi env =
         { events := [Event.printErr ("Error: Invalid engine \"" ++ engineOf env ++
             "\". Valid options are: legacy, native")],
           exitCode := some 1, result := none } ∧
       ∀ ev ∈ (runAcrobi env).events, isIOEvent ev = false) ∧
    (∀ env : Env, env.engineOpt = none → engineOf env = "legacy") := by
  constructor
  · intro env h
    have hr := runAcrobi_invalid_engine env h
    refine ⟨hr, ?_⟩
    rw [hr]
    intro ev hev
    simp only [List.mem_singleton] at hev
    subst hev
    rfl
  · intro env h
    simp [engineOf, h]

/-- Witness for C2 at the concrete runs `envInvalidEngine` (engine `turbo`)
and `envDefaultEngine` (no engine flag). -/
theorem c2_engine_validation_witness :
    (runAcrobi envInvalidEngine =
      { events := [Event.printErr "Error: Invalid engine \"turbo\". Valid options are: legacy, native"],
        exitCode := some 1, result := none } ∧
     ∀ ev ∈ (runAcrobi envInvalidEngine).events, isIOEvent ev = false) ∧
    engineOf envDefaultEngine = "legacy" :=
  ⟨c2_engine_validation.1 envInvalidEngine (by decide),
   c2_engine_validation.2 envDefaultEngine rfl⟩

/-- C9: when neither the local colocated runtime nor the global package
resolves, the run reports the runtime-unavailable condition with the two
installation-guidance lines and exits 1, having attempted each source
exactly once (no retry of either import). -/
theorem c9_runtime_unavailable (env : Env)
    (hV : validEngine (engineOf env) = true)
    (hL : env.localRuntimeOk = false) (hP : env.packageRuntimeOk = false) :
    (runAcrobi env).events =
      [Event.printOut ("🚀 Running Acrobi task: \"" ++ env.task ++ "\""),
       Event.printOut ("🔧 Using engine: " ++ String.mk ((engineOf env).data.map Char.toUpper)),
       Event.importLocalRuntime, Event.importPackageRuntime,
       Event.printErr "❌ Cortex runtime not found",
       Event.printOut "💡 Install it locally: npm install file:../cortex",
       Event.printOut "💡 Or install from npm: npm install @acrobi/cortex"] ∧
    (runAcrobi env).exitCode = some 1 ∧
    (runAcrobi env).events.count Event.importLocalRuntime = 1 ∧
    (runAcrobi env).events.count Event.importPackageRuntime = 1 := by
  have hr : runAcrobi env =
      { events :=
          [Event.printOut ("🚀 Running Acrobi task: \"" ++ env.task ++ "\""),
           Event.printOut ("🔧 Using engine: " ++ String.mk ((engineOf env).data.map Char.toUpper)),
           Event.importLocalRuntime, Event.importPackageRuntime,
           Event.printErr "❌ Cortex runtime not found",
           Event.printOut "💡 Install it locally: npm install file:../cortex",
           Event.printOut "💡 Or install from npm: npm install @acrobi/cortex"],
        exitCode := some 1, result := none } := by
    simp [runAcrobi, hV, hL, hP]
  rw [hr]
  refine ⟨rfl, rfl, ?_, ?_⟩ <;>
    simp [List.count_cons, List.count_nil, beq_iff_eq]

/-- Witness for C9 at the concrete run `envNoRuntime`. -/
theorem c9_runtime_unavailable_witness :
    (runAcrobi envNoRuntime).events =
      [Event.printOut "🚀 Running Acrobi task: \"hi\"",
       Event.printOut "🔧 Using engine: LEGACY",
       Event.importLocalRuntime, Event.importPackageRuntime,
       Event.printErr "❌ Cortex runtime not found",
       Event.printOut "💡 Install it locally: npm install file:../cortex",
       Event.printOut "💡 Or install from npm: npm install @acrobi/cortex"] ∧
    (runAcrobi envNoRuntime).exitCode = some 1 ∧
    (runAcrobi envNoRuntime).events.count Event.importLocalRuntime = 1 ∧
    (runAcrobi envNoRuntime).events.count Event.importPackageRuntime = 1 :=
  c9_runtime_unavailable envNoRuntime (by decide) rfl rfl

/-- C3 (refuted, code bug): at the concrete run `envPackageNative` —
engine `native`, local runtime import fails, the `@acrobi/cortex` package
resolves — the run does not satisfy the session-manager precondition: it
throws the `NativeSessionManager not available` condition to the top-level
handler and exits 1 without any session ever being created, because the
package-fallback import never binds `NativeSessionManager`. -/
theorem c3_package_native_manager_missing :
    packageCaps.hasNativeSessionManager = false ∧
    (runAcrobi envPackageNative).exitCode = some 1 ∧
    Event.topError "NativeSessionManager not available - please ensure @acrobi/cortex is properly installed"
      ∈ (runAcrobi envPackageNative).events ∧
    Event.createSessionCall ∉ (runAcrobi envPackageNative).events := by
  refine ⟨rfl, ?_, ?_, ?_⟩ <;> decide

/-- C1: on every native run that reaches a created session (the manager
resolved, tool loading did not throw, and `createSession` returned the
identifier `sid`), `deactivateSession` is invoked exactly once with that
identifier — both when `sendMessage` returns normally and when it throws —
and in the throwing case the deactivation precedes the top-level handler. -/
theorem c1_native_guaranteed_cleanup (env : Env) (sid : String)
    (hE : engineOf env = "native")
    (hR : env.localRuntimeOk = true)
    (hT : (env.localLoaderOk || env.packageLoaderOk) = true → isOkE env.loaderRun = true)
    (hC : env.createRes = Except.ok sid) :
    (runAcrobi env).events.count (Event.deactivateSessionCall sid) = 1 ∧
    ∀ e, env.sendRes = Except.error e →
      ∃ pre post, (runAcrobi env).events = pre ++ Event.topError e :: post ∧
        Event.deactivateSessionCall sid ∈ pre := by
  have hV : validEngine (engineOf env) = true := by rw [hE]; decide
  have hreach := runAcrobi_reach env hV (Or.inl hR) hT
  have h1 : (phaseBase env).count (Event.deactivateSessionCall sid) = 0 :=
    count_zero_of_phase (phaseBase_phase env) rfl
  have h2 : ∀ r, ((reportResult r).1).count (Event.deactivateSessionCall sid) = 0 :=
    fun r => count_zero_of_phase (reportResult_events_print r) rfl
  cases hs : env.sendRes with
  | ok content =>
    refine ⟨?_, ?_⟩
    · rw [hreach, hE]
      simp [afterTools, nativeExec, finishRun, capsOf, hR, localCaps, hC, hs,
            List.count_append, h1, h2, List.count_cons, beq_iff_eq]
    · intro e he
      exact absurd he (by simp)
  | error msg =>
    refine ⟨?_, ?_⟩
    · rw [hreach, hE]
      simp [afterTools, nativeExec, capsOf, hR, localCaps, hC, hs,
            List.count_append, h1, List.count_cons, beq_iff_eq]
    · intro e he
      injection he with he'
      subst he'
      rw [hreach, hE]
      refine ⟨(phaseBase env ++ [Event.printOut "🚀 Using Native Engine with Anthropic SDK"]) ++
        [Event.createSessionCall, Event.printOut ("Created native session: " ++ sid),
         Event.sendMessageCall sid, Event.deactivateSessionCall sid,
         Event.printOut "Native session deactivated"], [], ?_, ?_⟩
      · simp [afterTools, nativeExec, capsOf, hR, localCaps, hC, hs]
      · simp

/-- Witness for C1 at the concrete run `envNativeThrow`, whose
`sendMessage` call throws `boom` after session `session-1` was created. -/
theorem c1_native_guaranteed_cleanup_witness :
    (runAcrobi envNativeThrow).events.count (Event.deactivateSessionCall "session-1") = 1 ∧
    ∃ pre post, (runAcrobi envNativeThrow).events = pre ++ Event.topError "boom" :: post ∧
      Event.deactivateSessionCall "session-1" ∈ pre :=
  ⟨(c1_native_guaranteed_cleanup envNativeThrow "session-1" (by decide) rfl
      (by decide) rfl).1,
   (c1_native_guaranteed_cleanup envNativeThrow "session-1" (by decide) rfl
      (by decide) rfl).2 "boom" rfl⟩

/-- C4 (refuted as stated): at the concrete run `envLoaderThrows`, where the
tool loader is located successfully but throws when executed, the exception
reaches the top-level handler and the process exits with code 1 — so a
tool-discovery failure can terminate the process with an error. -/
theorem c4_loader_throw_is_fatal :
    (runAcrobi envLoaderThrows).exitCode = some 1 ∧
    Event.topError "loader exploded" ∈ (runAcrobi envLoaderThrows).events := by
  refine ⟨?_, ?_⟩ <;> decide

/-- C4 (amended): failure to locate the tool loader (both import sources
fail) is non-fatal — the run warns, proceeds with an empty tool registry,
and has the same exit code and reported result as a run that discovered
zero tools; but when the loader is located (via either the local or the
package source) and throws during execution, the exception propagates to
the top-level handler and the process exits 1. -/
theorem c4_discovery_failure_semantics :
    (∀ env : Env, validEngine (engineOf env) = true →
       (env.localRuntimeOk = true ∨ env.packageRuntimeOk = true) →
       env.localLoaderOk = false → env.packageLoaderOk = false →
       Event.printWarn "⚠️  Dynamic tool loading not available" ∈ (runAcrobi env).events ∧
       (runAcrobi env).exitCode =
         (runAcrobi { env with localLoaderOk := true, loaderRun := Except.ok [] }).exitCode ∧
       (runAcrobi env).result =
         (runAcrobi { env with localLoaderOk := true, loaderRun := Except.ok [] }).result) ∧
    (∀ env : Env, ∀ msg : String, validEngine (engineOf env) = true →
       (env.localRuntimeOk = true ∨ env.packageRuntimeOk = true) →
       (env.localLoaderOk || env.packageLoaderOk) = true →
       env.loaderRun = Except.error msg →
       (runAcrobi env).exitCode = some 1 ∧
       Event.topError msg ∈ (runAcrobi env).events) := by
  constructor
  · intro env hV hRt h1 h2
    have hT : (env.localLoaderOk || env.packageLoaderOk) = true → isOkE env.loaderRun = true := by
      intro h
      rw [h1, h2] at h
      exact absurd h (by decide)
    set env' : Env := { env with localLoaderOk := true, loaderRun := Except.ok [] } with henv'
    have hT' : (env'.localLoaderOk || env'.packageLoaderOk) = true → isOkE env'.loaderRun = true := by
      intro _
      rfl
    have hr := runAcrobi_reach env hV hRt hT
    have hr' := runAcrobi_reach env' hV hRt hT'
    have hts : toolsOf env = [] := by simp [toolsOf, h1, h2]
    have hts' : toolsOf env' = [] := by simp [toolsOf, henv']
    have hproj : afterTools env'.task env'.createRes env'.sendRes (capsOf env')
        (engineOf env') (phaseBase env') (toolsOf env')
        = afterTools env.task env.createRes env.sendRes (capsOf env)
            (engineOf env) (phaseBase env') [] := by
      rw [hts']
      rfl
    rw [hr, hr', hproj, hts]
    have hind := afterTools_exit_result_indep env.task env.createRes env.sendRes
      (capsOf env) (engineOf env) (phaseBase env) (phaseBase env') []
    refine ⟨?_, hind.1, hind.2⟩
    have hwarn : Event.printWarn "⚠️  Dynamic tool loading not available" ∈ phaseBase env := by
      unfold phaseBase
      simp [h1, h2]
    exact afterTools_mem_of_base _ _ _ _ _ _ _ _ hwarn
  · intro env msg hV hRt hLoc hrun
    have hrt : (env.localRuntimeOk || env.packageRuntimeOk) = true := by
      rcases hRt with h | h <;> simp [h]
    constructor
    · simp [runAcrobi, hV, hrt, hLoc, hrun]
    · simp [runAcrobi, hV, hrt, hLoc, hrun]

/-- Witness for the amended C4 at the concrete runs `envDefaultEngine`
(no loader source resolves), `envLoaderThrows` (locally located loader
throws) and `envPkgLoaderThrows` (package-located loader throws). -/
theorem c4_discovery_failure_semantics_witness :
    (Event.printWarn "⚠️  Dynamic tool loading not available" ∈ (runAcrobi envDefaultEngine).events ∧
     (runAcrobi envDefaultEngine).exitCode =
       (runAcrobi { envDefaultEngine with localLoaderOk := true, loaderRun := Except.ok [] }).exitCode ∧
     (runAcrobi envDefaultEngine).result =
       (runAcrobi { envDefaultEngine with localLoaderOk := true, loaderRun := Except.ok [] }).result) ∧
    ((runAcrobi envLoaderThrows).exitCode = some 1 ∧
     Event.topError "loader exploded" ∈ (runAcrobi envLoaderThrows).events) ∧
    ((runAcrobi envPkgLoaderThrows).exitCode = some 1 ∧
     Event.topError "loader exploded via package" ∈ (runAcrobi envPkgLoaderThrows).events) :=
  ⟨c4_discovery_failure_semantics.1 envDefaultEngine (by decide) (Or.inl rfl) rfl rfl,
   c4_discovery_failure_semantics.2 envLoaderThrows "loader exploded" (by decide)
     (Or.inl rfl) rfl rfl,
   c4_discovery_failure_semantics.2 envPkgLoaderThrows "loader exploded via package"
     (by decide) (Or.inl rfl) rfl rfl⟩

/-- C6: on a legacy run, the agent cleanup executes whenever the run step
returns normally (success or structured failure), but when the run step
throws, the top-level handler catches it and the process exits 1 with the
cleanup call never reached. -/
theorem c6_legacy_cleanup_asymmetry (env : Env)
    (hE : engineOf env = "legacy")
    (hRt : env.localRuntimeOk = true ∨ env.packageRuntimeOk = true)
    (hT : (env.localLoaderOk || env.packageLoaderOk) = true → isOkE env.loaderRun = true) :
    (∀ evs r, legacyRun env.task (toolsOf env) = (evs, Except.ok r) →
       Event.agentCleanupCall ∈ (runAcrobi env).events) ∧
    (∀ evs msg, legacyRun env.task (toolsOf env) = (evs, Except.error msg) →
       Event.agentCleanupCall ∉ (runAcrobi env).events ∧
       (runAcrobi env).exitCode = some 1 ∧
       Event.topError msg ∈ (runAcrobi env).events) := by
  have hV : validEngine (engineOf env) = true := by rw [hE]; decide
  have hr := runAcrobi_reach env hV hRt hT
  have hne : (("legacy" : String) == "native") = false := by decide
  rw [hr, hE]
  constructor
  · intro evs r hrun
    simp [afterTools, legacyExec, finishRun, hne, hrun]
  · intro evs msg hrun
    have hev : (afterTools env.task env.createRes env.sendRes (capsOf env) "legacy"
        (phaseBase env) (toolsOf env)).events =
        ((phaseBase env ++
          [Event.printOut "🔄 Using Legacy Engine",
           Event.printOut "🤖 Creating local executor agent...",
           Event.printOut "⚡ Executing task..."]) ++ evs) ++ [Event.topError msg] := by
      simp [afterTools, legacyExec, hne, hrun]
    refine ⟨?_, ?_, ?_⟩
    · rw [hev]
      intro hmem
      rcases List.mem_append.mp hmem with h | h
      · rcases List.mem_append.mp h with h' | h'
        · rcases List.mem_append.mp h' with h'' | h''
          · exact absurd (phaseBase_phase env _ h'') (by decide)
          · simp at h''
        · have hm : Event.agentCleanupCall ∈ (legacyRun env.task (toolsOf env)).1 := by
            rw [hrun]
            exact h'
          exact absurd (legacyRun_events_shape env.task (toolsOf env) _ hm) (by decide)
      · simp at h
    · simp [afterTools, legacyExec, hne, hrun]
    · rw [hev]
      simp

/-- Witness for C6 at the concrete runs `envLegacyTitle` (run returns
normally) and `envLegacyGotoThrows` (run throws `page crashed`). -/
theorem c6_legacy_cleanup_asymmetry_witness :
    Event.agentCleanupCall ∈ (runAcrobi envLegacyTitle).events ∧
    (Event.agentCleanupCall ∉ (runAcrobi envLegacyGotoThrows).events ∧
     (runAcrobi envLegacyGotoThrows).exitCode = some 1 ∧
     Event.topError "page crashed" ∈ (runAcrobi envLegacyGotoThrows).events) :=
  ⟨(c6_legacy_cleanup_asymmetry envLegacyTitle rfl (Or.inl rfl) (by decide)).1
     [Event.gotoCall "https://example.com", Event.titleCall]
     { success := true, title := some "Example Domain",
       message := some "Page title: Example Domain" } rfl,
   (c6_legacy_cleanup_asymmetry envLegacyGotoThrows rfl (Or.inl rfl) (by decide)).2
     [Event.gotoCall "https://example.com"] "page crashed" rfl⟩

/-- Every result the legacy agent returns normally satisfies the
normalization invariant, provided the registered tools honour their
failure contract (failure records carry an error). -/
theorem legacyRun_ok_invariant (task : String) (tools : List (String × PTool))
    (hW : ∀ p ∈ tools, toolWF p.2) :
    ∀ evs r, legacyRun task tools = (evs, Except.ok r) → resultInvariant r := by
  intro evs r h
  unfold legacyRun at h
  by_cases hi : intentMatch task = true
  · simp only [hi, if_pos] at h
    rcases hlk : List.lookup "PlaywrightBrowser" tools with _ | tool <;>
      simp only [hlk] at h
    · have h2 : Except.ok ({ success := false, error := some "Playwright tool not found. Install it with: npm install @acrobi/tool-playwright" } : ExecutionResult) = Except.ok r :=
        congrArg Prod.snd h
      injection h2 with h3
      subst h3
      exact ⟨fun _ => rfl, fun hs => by simp at hs⟩
    · have hwf : toolWF tool := hW _ (lookup_mem tools _ tool hlk)
      rcases hex : extractUrl task.data with _ | uc <;> simp only [hex] at h
      · have h2 : Except.ok ({ success := false, error := some "Could not extract URL from task" } : ExecutionResult) = Except.ok r :=
          congrArg Prod.snd h
        injection h2 with h3
        subst h3
        exact ⟨fun _ => rfl, fun hs => by simp at hs⟩
      · rcases hgo : tool.gotoOut (prefixUrl (String.mk uc)) with ge | nav <;>
          simp only [hgo] at h
        · exact absurd (congrArg Prod.snd h) (by simp)
        · cases hnav : nav.success <;> simp only [hnav] at h
          · have h2 : Except.ok ({ success := false, error := nav.error } : ExecutionResult) = Except.ok r :=
              congrArg Prod.snd h
            injection h2 with h3
            subst h3
            refine ⟨fun _ => hwf.1 _ nav hgo hnav, fun hs => by simp at hs⟩
          · rcases hti : tool.titleOut with te | tr <;> simp only [hti] at h
            · exact absurd (congrArg Prod.snd h) (by simp)
            · cases htr : tr.success <;> simp only [htr] at h
              · have h2 : Except.ok ({ success := false, error := tr.error } : ExecutionResult) = Except.ok r :=
                  congrArg Prod.snd h
                injection h2 with h3
                subst h3
                refine ⟨fun _ => hwf.2 tr hti htr, fun hs => by simp at hs⟩
              · cases hcl : tool.hasCleanup <;> simp only [hcl] at h
                · have h2 : Except.ok ({ success := true, title := some tr.data, message := some ("Page title: " ++ tr.data) } : ExecutionResult) = Except.ok r :=
                    congrArg Prod.snd h
                  injection h2 with h3
                  subst h3
                  exact ⟨fun hs => by simp at hs, fun _ => Or.inl rfl⟩
                · rcases hco : tool.cleanupOut with ce | cu <;> simp only [hco] at h
                  · exact absurd (congrArg Prod.snd h) (by simp)
                  · have h2 : Except.ok ({ success := true, title := some tr.data, message := some ("Page title: " ++ tr.data) } : ExecutionResult) = Except.ok r :=
                      congrArg Prod.snd h
                    injection h2 with h3
                    subst h3
                    exact ⟨fun hs => by simp at hs, fun _ => Or.inl rfl⟩
  · simp only [Bool.not_eq_true] at hi
    simp only [hi, Bool.false_eq_true, if_neg, if_false] at h
    have h2 : Except.ok ({ success := true,
                           message := some ("Task \"" ++ task ++ "\" completed successfully (simulated execution)"),
                           note := some "This is a simulated result. For actual automation, install specific tool packages." } : ExecutionResult) = Except.ok r :=
      congrArg Prod.snd h
    injection h2 with h3
    subst h3
    exact ⟨fun hs => by simp at hs, fun _ => Or.inl rfl⟩

/-- A result reaching the reporter comes either from the native engine's
fixed success record or from a normal return of the legacy agent. -/
theorem afterTools_result_source (task : String)
    (createRes sendRes : Except String String) (caps : RuntimeCaps)
    (engine : String) (base : List Event) (ts : List (String × PTool))
    (r : ExecutionResult)
    (h : (afterTools task createRes sendRes caps engine base ts).result = some r) :
    (∃ content, r = { success := true, message := some "Task completed with native engine",
                      response := some content }) ∨
    (∃ evs, legacyRun task ts = (evs, Except.ok r)) := by
  unfold afterTools nativeExec legacyExec finishRun at h
  by_cases he : (engine == "native") = true
  · rw [if_pos he] at h
    by_cases hm : caps.hasNativeSessionManager = true
    · rw [if_pos hm] at h
      cases createRes with
      | error e => simp at h
      | ok sid =>
        cases sendRes with
        | ok content =>
          simp at h
          exact Or.inl ⟨content, h.symm⟩
        | error e => simp at h
    · rw [if_neg hm] at h
      simp at h
  · rw [if_neg he] at h
    rcases hrun : legacyRun task ts with ⟨aevs, res⟩
    rw [hrun] at h
    cases res with
    | error e => simp at h
    | ok r' =>
      simp at h
      exact Or.inr ⟨aevs, by rw [h]⟩

/-- C5: every ExecutionResult that reaches the result reporter — from
either engine — satisfies the normalization invariant: a failure carries an
error and a success populates at least one of message, title, response
(assuming the registered tools honour their own failure contract, since the
legacy engine copies a failing tool action's error field verbatim). -/
theorem c5_result_invariant (env : Env) (r : ExecutionResult)
    (hW : ∀ p ∈ toolsOf env, toolWF p.2)
    (hR : (runAcrobi env).result = some r) : resultInvariant r := by
  rcases (Bool.eq_false_or_eq_true (validEngine (engineOf env))).symm with hV | hV
  · rw [runAcrobi_invalid_engine env hV] at hR
    simp at hR
  rcases (Bool.eq_false_or_eq_true (env.localRuntimeOk || env.packageRuntimeOk)).symm with hRt | hRt
  · have hnone : (runAcrobi env).result = none := by simp [runAcrobi, hV, hRt]
    rw [hnone] at hR
    simp at hR
  have hOr := Bool.or_eq_true_iff.mp hRt
  rcases (Bool.eq_false_or_eq_true (env.localLoaderOk || env.packageLoaderOk)).symm with hT | hT
  · have hreach := runAcrobi_reach env hV hOr (fun hcon => absurd hcon (by simp [hT]))
    rw [hreach] at hR
    rcases afterTools_result_source _ _ _ _ _ _ _ _ hR with ⟨c, rfl⟩ | ⟨evs, hrun⟩
    · exact ⟨fun hs => by simp at hs, fun _ => Or.inl rfl⟩
    · exact legacyRun_ok_invariant env.task (toolsOf env) hW evs r hrun
  · rcases hload : env.loaderRun with msg | ts
    · have hnone : (runAcrobi env).result = none := by
        simp [runAcrobi, hV, hRt, hT, hload]
      rw [hnone] at hR
      simp at hR
    · have hreach := runAcrobi_reach env hV hOr (fun _ => by simp [isOkE, hload])
      rw [hreach] at hR
      rcases afterTools_result_source _ _ _ _ _ _ _ _ hR with ⟨c, rfl⟩ | ⟨evs, hrun⟩
      · exact ⟨fun hs => by simp at hs, fun _ => Or.inl rfl⟩
      · exact legacyRun_ok_invariant env.task (toolsOf env) hW evs r hrun

/-- Witness for C5 at the concrete run `envDefaultEngine`, whose reported
result is the simulated-execution success record. -/
theorem c5_result_invariant_witness :
    resultInvariant { success := true,
                      message := some "Task \"hi\" completed successfully (simulated execution)",
                      note := some "This is a simulated result. For actual automation, install specific tool packages." } :=
  c5_result_invariant envDefaultEngine _ (fun p hp => absurd hp (List.not_mem_nil p)) rfl

/-- On the browser-intent path with an extracted target, the tool's `goto`
action is always invoked with the scheme-defaulted url, whatever the tool
then does. -/
theorem legacyRun_goto_called (task : String) (tools : List (String × PTool))
    (tool : PTool) (u : List Char)
    (hI : intentMatch task = true)
    (hL : tools.lookup "PlaywrightBrowser" = some tool)
    (hU : extractUrl task.data = some u) :
    Event.gotoCall (prefixUrl (String.mk u)) ∈ (legacyRun task tools).1 := by
  unfold legacyRun
  simp only [hI, if_pos, hL, hU]
  rcases hgo : tool.gotoOut (prefixUrl (String.mk u)) with ge | nav <;> simp only [hgo]
  · simp
  · cases hnav : nav.success <;> try simp only [hnav]
    · simp
    · rcases hti : tool.titleOut with te | tr <;> try simp only [hti]
      · simp
      · cases htr : tr.success <;> try simp only [htr]
        · simp
        · cases hcl : tool.hasCleanup <;> try simp only [hcl]
          · simp
          · rcases hco : tool.cleanupOut with ce | cu <;> try simp only [hco]
            all_goals simp

/-- C7: given engine=legacy semantics (the local executor agent), a task
matching the browser intent with an extractable target and a registered
`PlaywrightBrowser` tool: when `goto` and `title` both succeed the result
is a success whose `title` equals the tool's reported title and whose
message contains that title verbatim; when `goto` fails its error value
becomes the result's `error` and the `title` action is not attempted; when
`title` fails its error value becomes the result's `error` and the cleanup
hook is not invoked. -/
theorem c7_browser_intent_execution (task : String)
    (tools : List (String × PTool)) (tool : PTool) (u : List Char)
    (hI : intentMatch task = true)
    (hL : tools.lookup "PlaywrightBrowser" = some tool)
    (hU : extractUrl task.data = some u) :
    (∀ nav tr, tool.gotoOut (prefixUrl (String.mk u)) = Except.ok nav →
       nav.success = true → tool.titleOut = Except.ok tr → tr.success = true →
       (tool.hasCleanup = true → tool.cleanupOut = Except.ok ()) →
       (legacyRun task tools).2 =
         Except.ok { success := true, title := some tr.data,
                     message := some ("Page title: " ++ tr.data) } ∧
       strContains ("Page title: " ++ tr.data) tr.data = true) ∧
    (∀ nav, tool.gotoOut (prefixUrl (String.mk u)) = Except.ok nav →
       nav.success = false →
       (legacyRun task tools).2 = Except.ok { success := false, error := nav.error } ∧
       Event.titleCall ∉ (legacyRun task tools).1) ∧
    (∀ nav tr, tool.gotoOut (prefixUrl (String.mk u)) = Except.ok nav →
       nav.success = true → tool.titleOut = Except.ok tr → tr.success = false →
       (legacyRun task tools).2 = Except.ok { success := false, error := tr.error } ∧
       Event.toolCleanupCall ∉ (legacyRun task tools).1) := by
  refine ⟨?_, ?_, ?_⟩
  · intro nav tr hgo hnav hti htr hclean
    constructor
    · unfold legacyRun
      simp only [hI, if_pos, hL, hU, hgo, hnav, hti, htr]
      cases hcl : tool.hasCleanup with
      | false => simp
      | true => simp [hclean hcl]
    · exact strContains_append_right "Page title: " tr.data
  · intro nav hgo hnav
    unfold legacyRun
    simp only [hI, if_pos, hL, hU, hgo, hnav]
    simp
  · intro nav tr hgo hnav hti htr
    unfold legacyRun
    simp only [hI, if_pos, hL, hU, hgo, hnav, hti, htr]
    simp

/-- Witness for C7 at the concrete task `get the title of example.com`
with the always-succeeding tool `happyTool`. -/
theorem c7_browser_intent_execution_witness :
    (legacyRun "get the title of example.com" [("PlaywrightBrowser", happyTool)]).2 =
      Except.ok { success := true, title := some "Example Domain",
                  message := some "Page title: Example Domain" } ∧
    strContains "Page title: Example Domain" "Example Domain" = true :=
  (c7_browser_intent_execution "get the title of example.com"
    [("PlaywrightBrowser", happyTool)] happyTool "example.com".data
    (by decide) rfl (by decide)).1
    { success := true } { success := true, data := "Example Domain" }
    rfl rfl rfl rfl (fun h => nomatch h)

/-- C8 (refuted as stated): the extracted target `ftp://example.com`
already carries a URL scheme, yet the legacy path does not pass it to
`goto` unchanged — the scheme test is the literal prefix `http`, so the
target is invoked as `https://ftp://example.com`. -/
theorem c8_scheme_counterexample :
    hasScheme "ftp://example.com" = true ∧
    extractUrl "browser: navigate to ftp://example.com".data =
      some "ftp://example.com".data ∧
    Event.gotoCall "https://ftp://example.com" ∈
      (legacyRun "browser: navigate to ftp://example.com"
        [("PlaywrightBrowser", happyTool)]).1 ∧
    Event.gotoCall "ftp://example.com" ∉
      (legacyRun "browser: navigate to ftp://example.com"
        [("PlaywrightBrowser", happyTool)]).1 := by
  refine ⟨?_, ?_, ?_, ?_⟩ <;> decide

/-- C8 (amended): on the legacy browser-intent path, an extracted target
beginning with the literal prefix `http` is passed to the `goto` action
unchanged; every other target — including one that already carries a
non-http scheme — is prefixed with `https://` first. -/
theorem c8_amended_scheme_defaulting (task : String)
    (tools : List (String × PTool)) (tool : PTool) (u : List Char)
    (hI : intentMatch task = true)
    (hL : tools.lookup "PlaywrightBrowser" = some tool)
    (hU : extractUrl task.data = some u) :
    (beginsWith u "http".data = true →
       Event.gotoCall (String.mk u) ∈ (legacyRun task tools).1) ∧
    (beginsWith u "http".data = false →
       Event.gotoCall ("https://" ++ String.mk u) ∈ (legacyRun task tools).1) := by
  have hcall := legacyRun_goto_called task tools tool u hI hL hU
  constructor
  · intro hb
    have hp : prefixUrl (String.mk u) = String.mk u := by
      unfold prefixUrl
      rw [show (String.mk u).data = u from rfl, hb]
      simp
    rwa [hp] at hcall
  · intro hb
    have hp : prefixUrl (String.mk u) = "https://" ++ String.mk u := by
      unfold prefixUrl
      rw [show (String.mk u).data = u from rfl, hb]
      simp
    rwa [hp] at hcall

/-- Witness for the amended C8 at a target with a non-http scheme and one
with an http prefix. -/
theorem c8_amended_scheme_defaulting_witness :
    Event.gotoCall ("https://" ++ String.mk "ftp://example.com".data) ∈
      (legacyRun "browser: navigate to ftp://example.com"
        [("PlaywrightBrowser", happyTool)]).1 ∧
    Event.gotoCall (String.mk "https://example.com".data) ∈
      (legacyRun "browser: visit https://example.com"
        [("PlaywrightBrowser", happyTool)]).1 :=
  ⟨(c8_amended_scheme_defaulting "browser: navigate to ftp://example.com"
      [("PlaywrightBrowser", happyTool)] happyTool "ftp://example.com".data
      (by decide) rfl (by decide)).2 (by decide),
   (c8_amended_scheme_defaulting "browser: visit https://example.com"
      [("PlaywrightBrowser", happyTool)] happyTool "https://example.com".data
      (by decide) rfl (by decide)).1 (by decide)⟩

/-- C10: the target extracted on the legacy browser-intent path is exactly
the capture of the leftmost position at which one of the phrases
`title of`, `visit`, `go to`, `navigate to` (case-insensitively) followed
by whitespace and a non-whitespace token matches, the capture being the
first maximal run of non-whitespace characters after that whitespace — so
trailing punctuation attached to the token is included, as the concrete
evaluation shows — and when no such match exists the legacy run returns the
structured failure `Could not extract URL from task`. -/
theorem c10_extraction_semantics :
    (∀ s : List Char, extractUrl s = claimExtract s) ∧
    extractUrl "Get the title of example.com.".data = some "example.com.".data ∧
    extractUrl "go to  ".data = none ∧
    (∀ (task : String) (tools : List (String × PTool)) (tool : PTool),
       intentMatch task = true →
       tools.lookup "PlaywrightBrowser" = some tool →
       extractUrl task.data = none →
       (legacyRun task tools).2 =
         Except.ok { success := false, error := some "Could not extract URL from task" }) := by
  refine ⟨?_, by decide, by decide, ?_⟩
  · intro s
    induction s with
    | nil => decide
    | cons c cs ih =>
      simp only [claimExtract, List.tails_cons, List.findSome?_cons]
      cases h : matchAt (c :: cs) with
      | some r => simp [extractUrl, h]
      | none =>
        simp only [extractUrl, h]
        exact ih
  · intro task tools tool hI hL hU
    unfold legacyRun
    simp [hI, hL, hU]

/-- Witness for C10: the scan agreement at a concrete task and the
structured failure at a browser task with no extractable target. -/
theorem c10_extraction_semantics_witness :
    extractUrl "please visit example.org now".data =
      claimExtract "please visit example.org now".data ∧
    (legacyRun "browser please" [("PlaywrightBrowser", happyTool)]).2 =
      Except.ok { success := false, error := some "Could not extract URL from task" } :=
  ⟨c10_extraction_semantics.1 "please visit example.org now".data,
   c10_extraction_semantics.2.2.2 "browser please" [("PlaywrightBrowser", happyTool)]
     happyTool (by decide) rfl (by decide)⟩

end Acrobi
